import Mathlib

/-! # Verification of `clickhouse_orm/database.py`

A shallow embedding, in Lean 4, of the protocol core of the
`infi.clickhouse_orm` database module (`src/clickhouse_orm/database.py`),
together with theorems settling the frozen claims about it.

Embedding conventions:
- Python strings are modelled as Lean `String` / `List Char` (code points).
- Python dictionaries used as HTTP parameter maps are modelled as functions
  `String → Option String`; `dict.update` is right-biased override.
- Fallible code is modelled with `Except` / explicit outcome types.
- Network interaction is modelled by the data that would be sent: the
  insert generator is the list of yielded byte chunks, a chunk being the
  list of written pieces (header or serialized record).
-/

namespace ClickhouseOrm

/-! ## Character and string helpers -/

/-- Python `str.strip()` whitespace set (ASCII part): space, tab, newline,
carriage return, vertical tab, form feed. -/
def isPySpace (c : Char) : Bool :=
  c == ' ' || c == '\t' || c == '\n' || c == '\r' || c == '\x0b' || c == '\x0c'

/-- Python `str.strip()` on a list of characters: drop leading and trailing
whitespace. -/
def pyStrip (l : List Char) : List Char :=
  ((l.dropWhile isPySpace).reverse.dropWhile isPySpace).reverse

/-- Numeric value of a list of decimal digit characters (most significant
first), as produced by `int()` on a plain digit string. -/
def digitsToNat (l : List Char) : Nat :=
  l.foldl (fun n c => n * 10 + (c.toNat - 48)) 0

/-! ## Error Decoder (`ServerError.get_error_code_msg`)

The three `ERROR_PATTERNS` regular expressions of the source are embedded
as values of a small regular-expression language `Re` covering exactly the
constructs they use: literal characters, single-character classes,
concatenation, greedy and lazy one-or-more repetition of a class
(`\d+`, `[^ \n]+`, `.+`, `.+?` under `re.DOTALL`), and capturing groups.
`matchRe` enumerates the matches of a pattern against a prefix of the
input in standard backtracking priority order, so its first element is
the match Python `re.match` returns. -/

/-- Class of `\d`. -/
def pDigit (c : Char) : Bool := c.isDigit

/-- Class of `.` under `re.DOTALL`: any character. -/
def pAny (_ : Char) : Bool := true

/-- Class of `[^ \n]`. -/
def pNotSpNl (c : Char) : Bool := !(c == ' ' || c == '\n')

/-- Regular-expression fragment language used by the error patterns. -/
inductive Re where
  | eps : Re
  | tok (p : Char → Bool) : Re
  | seq (a b : Re) : Re
  | rep1 (greedy : Bool) (p : Char → Bool) : Re
  | grp (idx : Nat) (r : Re) : Re

/-- Length of the maximal run of characters satisfying `p` at the head. -/
def runLen (p : Char → Bool) : List Char → Nat
  | [] => 0
  | c :: rest => if p c then runLen p rest + 1 else 0

/-- Candidate consumption lengths for a one-or-more repetition whose maximal
run has length `n`: longest-first when greedy, shortest-first when lazy. -/
def rep1Cands (greedy : Bool) (n : Nat) : List Nat :=
  if greedy then (List.range n).map (fun i => n - i) else (List.range n).map (fun i => i + 1)

/-- All ways a pattern can match a prefix of `s`, in backtracking priority
order; each result carries the captured groups (index, captured text) and
the unconsumed remainder. -/
def matchRe : Re → List Char → List (List (Nat × List Char) × List Char)
  | .eps, s => [([], s)]
  | .tok p, s =>
    match s with
    | [] => []
    | c :: rest => if p c then [([], rest)] else []
  | .seq a b, s =>
    (matchRe a s).flatMap (fun pr => (matchRe b pr.2).map (fun qr => (pr.1 ++ qr.1, qr.2)))
  | .rep1 g p, s => (rep1Cands g (runLen p s)).map (fun k => (([] : List (Nat × List Char)), s.drop k))
  | .grp i r, s =>
    (matchRe r s).map (fun pr => (pr.1 ++ [(i, s.take (s.length - pr.2.length))], pr.2))

/-- Python `pattern.match(s)`: the highest-priority prefix match, if any,
giving its captured groups. -/
def reMatch (r : Re) (s : List Char) : Option (List (Nat × List Char)) :=
  (matchRe r s).head?.map (fun pr => pr.1)

/-- Literal string pattern. -/
def lit : List Char → Re
  | [] => .eps
  | c :: rest => .seq (.tok (fun x => x == c)) (lit rest)

/-- Concatenation of a list of patterns. -/
def seqs (rs : List Re) : Re := rs.foldr Re.seq .eps

/-- First `ERROR_PATTERNS` entry (ClickHouse prior to v19.3.3), verbose form
`Code:\ (?P<code>\d+),\ e\.displayText\(\)\ =\ (?P<type1>[^ \n]+):\ (?P<msg>.+?),\ e.what\(\)\ =\ (?P<type2>[^ \n]+)`.
Group indices: 0 = code, 1 = type1, 2 = msg, 3 = type2. The unescaped dot
of `e.what` is a genuine any-character token. -/
def errPattern1 : Re := seqs
  [ lit "Code: ".data, .grp 0 (.rep1 true pDigit),
    lit ", e.displayText() = ".data, .grp 1 (.rep1 true pNotSpNl),
    lit ": ".data, .grp 2 (.rep1 false pAny),
    lit ", e".data, .tok pAny, lit "what() = ".data, .grp 3 (.rep1 true pNotSpNl) ]

/-- Second `ERROR_PATTERNS` entry (ClickHouse v19.3.3+):
`Code:\ (?P<code>\d+),\ e\.displayText\(\)\ =\ (?P<type1>[^ \n]+):\ (?P<msg>.+)`. -/
def errPattern2 : Re := seqs
  [ lit "Code: ".data, .grp 0 (.rep1 true pDigit),
    lit ", e.displayText() = ".data, .grp 1 (.rep1 true pNotSpNl),
    lit ": ".data, .grp 2 (.rep1 true pAny) ]

/-- Third `ERROR_PATTERNS` entry (ClickHouse v21+):
`Code:\ (?P<code>\d+).\ (?P<type1>[^ \n]+):\ (?P<msg>.+)`; the dot after the
code group is an unescaped any-character token. -/
def errPattern3 : Re := seqs
  [ lit "Code: ".data, .grp 0 (.rep1 true pDigit), .tok pAny, .tok (fun c => c == ' '),
    .grp 1 (.rep1 true pNotSpNl), lit ": ".data, .grp 2 (.rep1 true pAny) ]

/-- The ordered pattern chain `ServerError.ERROR_PATTERNS`. -/
def ERROR_PATTERNS : List Re := [errPattern1, errPattern2, errPattern3]

/-- First pattern of the chain that matches, with its captures. -/
def firstMatch : List Re → List Char → Option (List (Nat × List Char))
  | [], _ => none
  | r :: rest, s =>
    match reMatch r s with
    | some caps => some caps
    | none => firstMatch rest s

/-- Embedding of `ServerError.get_error_code_msg`: try the three patterns in
order; on a match return `(int(code), msg.strip())`; otherwise return
`(0, full_error_message)`. -/
def get_error_code_msg (full_error_message : String) : Int × String :=
  match firstMatch ERROR_PATTERNS full_error_message.data with
  | some caps =>
      (Int.ofNat (digitsToNat ((caps.lookup 0).getD [])),
       String.mk (pyStrip ((caps.lookup 2).getD [])))
  | none => (0, full_error_message)

/-! ## Record-kind collaborator interface

The model-class collaborator is known to `database.py` only through the
predicates and accessors it calls; it is embedded as a record of those. -/

/-- The record-kind (model class) interface as used by `database.py`. -/
structure ModelKind where
  table_name : String
  is_system_model : Bool
  is_temporary_model : Bool
  is_read_only : Bool
  has_funcs_as_defaults : Bool

/-! ## Placeholder substitution (`Database._substitute`)

`string.Template.safe_substitute` is embedded directly: scan for `$`;
`$$` escapes; `$ident` and braced `$`+`ident` forms are replaced when the
mapping knows the identifier and are left verbatim otherwise; an invalid
delimiter is left as-is (never an error). -/

/-- First character of a `Template` identifier (`(?a:[_a-zA-Z])`). -/
def isIdStart (c : Char) : Bool := c == '_' || c.isAlpha

/-- Subsequent character of a `Template` identifier (`(?a:[_a-zA-Z0-9])`). -/
def isIdChar (c : Char) : Bool := isIdStart c || c.isDigit

/-- Embedding of `Template(query).safe_substitute(mapping)` over the
character list of the query. -/
def safeSubstitute (mapping : String → Option String) : List Char → List Char
  | [] => []
  | [c] => [c]
  | c :: d :: rest2 =>
    if c == '$' then
      if d == '$' then '$' :: safeSubstitute mapping rest2
      else if d == '\x7b' then
        let ident := rest2.takeWhile isIdChar
        let after := rest2.drop ident.length
        if ident.head?.elim false isIdStart && after.head? == some '\x7d' then
          match mapping (String.mk ident) with
          | some v => v.data ++ safeSubstitute mapping after.tail
          | none => '$' :: '\x7b' :: (ident ++ '\x7d' :: safeSubstitute mapping after.tail)
        else '$' :: safeSubstitute mapping (d :: rest2)
      else if isIdStart d then
        let ident := (d :: rest2).takeWhile isIdChar
        match mapping (String.mk ident) with
        | some v => v.data ++ safeSubstitute mapping ((d :: rest2).drop ident.length)
        | none => '$' :: (ident ++ safeSubstitute mapping ((d :: rest2).drop ident.length))
      else '$' :: safeSubstitute mapping (d :: rest2)
    else c :: safeSubstitute mapping (d :: rest2)
termination_by l => l.length
decreasing_by
  all_goals simp only [List.length_tail, List.length_drop, List.length_cons]
  all_goals omega

/-- The substitution mapping built by `Database._substitute`: `db` maps to
the quoted database name; `table` (present only when a model class is
given) maps to the catalog-qualified system table for a system model, the
bare quoted table for a temporary model, and the database-qualified table
otherwise. -/
def substMapping (db_name : String) (model_class : Option ModelKind) (key : String) :
    Option String :=
  if key = "db" then some ("`" ++ db_name ++ "`")
  else if key = "table" then
    match model_class with
    | none => none
    | some mc =>
      if mc.is_system_model then some ("`system`.`" ++ mc.table_name ++ "`")
      else if mc.is_temporary_model then some ("`" ++ mc.table_name ++ "`")
      else some ("`" ++ db_name ++ "`.`" ++ mc.table_name ++ "`")
  else none

/-- Embedding of `Database._substitute`: substitution runs only when the
query contains a `$` character, and is the identity otherwise. -/
def _substitute (db_name : String) (query : String) (model_class : Option ModelKind) : String :=
  if query.data.contains '$' then
    String.mk (safeSubstitute (substMapping db_name model_class) query.data)
  else query

/-! ## Request dispatch (`Database._send`, `Database._build_params`) -/

/-- An HTTP response as `_send` observes it: status code and (drained)
body text. -/
structure HttpResponse where
  status_code : Nat
  text : String
deriving DecidableEq

/-- Embedding of the response handling of `Database._send`: when the status
code differs from 200 the drained body is decoded by
`ServerError(r.text)` — whose `(code, message)` pair is
`get_error_code_msg r.text` — and raised; otherwise the live response is
returned unchanged (even with an empty body). The request-building half of
`_send` is modelled by `_build_params` below. -/
def _send (r : HttpResponse) : Except (Int × String) HttpResponse :=
  if r.status_code ≠ 200 then .error (get_error_code_msg r.text) else .ok r

/-- Modelled from the spec: the spec has no definition of a successful HTTP
status beyond section 7, which classifies a `ServerError` as a "non-2xx
HTTP response"; so a success status is one in `200..299`. This definition
follows the words of the spec and is compared against `_send`, which is
translated from the source. -/
def isSuccessStatus (s : Nat) : Bool := 200 ≤ s && s < 300

/-- Right-biased override of parameter maps: `dict.update` — a key of the
updating map wins, all other keys fall through to the base map. -/
def updD (base upd : String → Option String) : String → Option String :=
  fun k =>
    match upd k with
    | some v => some v
    | none => base k

/-- Embedding of `Database._context_params`: when the ambient session id is
set and truthy (a non-empty string), the map carries `session_id` and
`session_timeout` (ambient value, defaulting to 60); otherwise it is
empty. -/
def _context_params (session_id : Option String) (session_timeout : Option Int)
    (k : String) : Option String :=
  match session_id with
  | none => none
  | some sid =>
    if sid = "" then none
    else if k = "session_id" then some sid
    else if k = "session_timeout" then some (toString (session_timeout.getD 60))
    else none

/-- The connection-level state read by `_build_params`. -/
structure ConnState where
  db_name : String
  db_exists : Bool
  readonly : Bool
  connection_readonly : Bool
  settings : String → Option String

/-- Embedding of `Database._build_params`: start from the per-call settings
(`dict(settings or {})`), override with the persistent connection
settings, then the session context, then `database` when the database is
known to exist, and finally `readonly = "1"` when the connection is in
requested-readonly mode and the server connection is not itself globally
readonly. -/
def _build_params (conn : ConnState) (settings : String → Option String)
    (session_id : Option String) (session_timeout : Option Int) : String → Option String :=
  let params := settings
  let params := updD params conn.settings
  let params := updD params (_context_params session_id session_timeout)
  let params :=
    if conn.db_exists then (fun k => if k = "database" then some conn.db_name else params k)
    else params
  if conn.readonly && !conn.connection_readonly then
    (fun k => if k = "readonly" then some "1" else params k)
  else params

/-! ## Batched insert streamer (`Database.insert`)

The generator `gen` inside `insert` writes into a byte buffer; the buffer
is modelled as the list of pieces written into it (the substituted INSERT
header, then one piece per serialized record), kept in reverse order while
accumulating and reversed at each yield. A network chunk is thus a list of
`InsItem`s, and the whole generator a list of chunks. `α` is the type of a
serialized record (`instance.to_db_string()`). -/

/-- One piece written into the insert buffer: the INSERT header, or one
serialized record. -/
inductive InsItem (α : Type) where
  | header (h : String) : InsItem α
  | record (a : α) : InsItem α
deriving DecidableEq

/-- An instance as `insert` inspects it: its access-mode flags (read from
the first instance's class) and its serialized form. -/
structure ModelInst (α : Type) where
  data : α
  is_read_only : Bool
  is_system_model : Bool

/-- The loop of `gen`: `buf` holds the pieces written so far (reversed),
`lines` the running line counter. Each record is written and counted;
when `lines` reaches `batch_size` the buffer is yielded and restarted
with `lines = 0`; after the source is exhausted a non-empty buffer
(`lines` truthy) is yielded. -/
def genLoop (batch_size : Nat) : List α → List (InsItem α) → Nat → List (List (InsItem α))
  | [], buf, lines => if lines ≠ 0 then [buf.reverse] else []
  | a :: rest, buf, lines =>
    let buf2 := InsItem.record a :: buf
    let lines2 := lines + 1
    if batch_size ≤ lines2 then buf2.reverse :: genLoop batch_size rest [] 0
    else genLoop batch_size rest buf2 lines2

/-- Embedding of `gen`: the first buffer holds the header and the first
record, and the line counter starts at 2 — the header counts as a line. -/
def gen (query : String) (first : α) (rest : List α) (batch_size : Nat) :
    List (List (InsItem α)) :=
  genLoop batch_size rest [InsItem.record first, InsItem.header query] 2

/-- Embedding of `Database.insert`. The result distinguishes the three
exits: an empty iterable returns without touching the network (`ok none`);
a read-only or system record-kind raises `DatabaseException` before any
network call (`error`); otherwise `_send(gen())` streams the produced
chunks (`ok (some chunks)`). The INSERT header computed from the first
instance (field list, format, `_substitute`) is abstracted as the given
`query` string: the claims concern chunking, not the header text. -/
def insert (query : String) (model_instances : List (ModelInst α)) (batch_size : Nat) :
    Except String (Option (List (List (InsItem α)))) :=
  match model_instances with
  | [] => .ok none
  | first :: rest =>
    if first.is_read_only || first.is_system_model then
      .error "DatabaseException: insert into read only and system tables"
    else
      .ok (some (gen query first.data (rest.map ModelInst.data) batch_size))

/-- Headers in a chunk (used to state where the INSERT header travels). -/
def isHeaderItem : InsItem α → Bool
  | .header _ => true
  | .record _ => false

/-- Observer on a buffer or chunk: how many header pieces and how many
record pieces it holds. -/
def profBuf (c : List (InsItem α)) : Nat × Nat :=
  ((c.filter (fun it => isHeaderItem it)).length,
   (c.filter (fun it => !(isHeaderItem it))).length)

/-- Per-chunk profile of a generator output: for each chunk, its
(header count, record count) pair. -/
def chunkProfile (chunks : List (List (InsItem α))) : List (Nat × Nat) :=
  chunks.map (fun c => profBuf c)

/-- Count-level image of `genLoop`, recursing on the number of remaining
records only (a proof device: `genLoop` maps onto it through
`chunkProfile`). -/
def profLoop (batch_size : Nat) : Nat → Nat × Nat → Nat → List (Nat × Nat)
  | 0, bufp, lines => if lines ≠ 0 then [bufp] else []
  | n + 1, bufp, lines =>
    let bufp2 := (bufp.1, bufp.2 + 1)
    let lines2 := lines + 1
    if batch_size ≤ lines2 then bufp2 :: profLoop batch_size n (0, 0) 0
    else profLoop batch_size n bufp2 lines2

/-- Shape of a yielded chunk sequence: every chunk before the last has
exactly `batch_size` pieces (lines), and the last is non-empty with at
most `batch_size` pieces. -/
def ChunksOk (batch_size : Nat) : List (List (InsItem α)) → Prop
  | [] => True
  | [c] => 1 ≤ c.length ∧ c.length ≤ batch_size
  | c :: rest => c.length = batch_size ∧ ChunksOk batch_size rest

/-! ## Pagination (`Database.paginate`)

`select` is a network read; its result over an ordered table with
`LIMIT offset, page_size` is modelled as `(table.drop offset).take
page_size`, the table being the full ordered row list the count query
counted. `int(ceil(count / float(page_size)))` is modelled as exact
ceiling division `(count + page_size - 1) / page_size` (the real-valued
ceiling; IEEE rounding of the Python float quotient is not modelled);
`count / float(0)` raises `ZeroDivisionError`, kept as an error exit. -/

/-- The `Page` namedtuple. -/
structure Page (α : Type) where
  objects : List α
  number_of_objects : Nat
  pages_total : Nat
  number : Int
  page_size : Nat
deriving DecidableEq

/-- The page-number resolution of `paginate`: `-1` becomes
`max(pages_total, 1)`; any other value below 1 raises `ValueError`. -/
def resolvePageNum (pages_total : Nat) (page_num : Int) : Except String Int :=
  if page_num = -1 then .ok (max (pages_total : Int) 1)
  else if page_num < 1 then .error ("ValueError: Invalid page number: " ++ toString page_num)
  else .ok page_num

/-- Embedding of `Database.paginate` over the ordered row list `table`.
The resolved page number is at least 1, so `offset = (number - 1) *
page_size` is the `Nat` it is in the source; `objects` is materialized
from `select` only when the count is non-zero. -/
def paginate (table : List α) (page_num : Int) (page_size : Nat) : Except String (Page α) :=
  let count := table.length
  if page_size = 0 then .error "ZeroDivisionError"
  else
    let pages_total := (count + page_size - 1) / page_size
    match resolvePageNum pages_total page_num with
    | .error e => .error e
    | .ok number =>
      let offset : Nat := (number - 1).toNat * page_size
      .ok { objects := if count ≠ 0 then (table.drop offset).take page_size else [],
            number_of_objects := count,
            pages_total := pages_total,
            number := number,
            page_size := page_size }

/-! ## Migration runner (`Database.migrate`)

A migration unit is its module name plus the outcomes of its operations
(`operation.apply(self)` either succeeds or raises; operations run in
order and the first raise aborts, so only whether all succeed matters to
the run's history). Recording a unit
(`self.insert([MigrationHistory(...)])`) is modelled as appending its
name to the run's history list. `int(name[:4])` is modelled by `pyInt`,
Python `int()` on ASCII text. -/

/-- Python `int(s)` on ASCII text, after the sign: a non-empty digit
sequence in which a single underscore may stand between two digits. -/
def pyIntDigits : Nat → List Char → Option Nat
  | acc, [] => some acc
  | acc, c :: rest =>
    if c.isDigit then pyIntDigits (acc * 10 + (c.toNat - 48)) rest
    else if c == '_' then
      match rest with
      | [] => none
      | d :: rest2 =>
        if d.isDigit then pyIntDigits (acc * 10 + (d.toNat - 48)) rest2 else none
    else none

/-- Python `int(s)` (decimal, ASCII): surrounding whitespace stripped, an
optional sign, then digits with optional single underscores between
digits; `none` is a `ValueError`. (Non-ASCII digits, accepted by Python,
are not modelled — migration names are ASCII.) -/
def pyInt (s : String) : Option Int :=
  match pyStrip s.data with
  | [] => none
  | c :: rest =>
    if c == '-' then
      match rest with
      | [] => none
      | d :: rest2 =>
        if d.isDigit then (pyIntDigits (d.toNat - 48) rest2).map (fun n => -(n : Int))
        else none
    else if c == '+' then
      match rest with
      | [] => none
      | d :: rest2 =>
        if d.isDigit then (pyIntDigits (d.toNat - 48) rest2).map (fun n => (n : Int))
        else none
    else if c.isDigit then (pyIntDigits (c.toNat - 48) rest).map (fun n => (n : Int))
    else none

/-- A migration unit: its module name and its operation outcomes. -/
structure MigUnit where
  name : String
  ops : List Bool
deriving DecidableEq

/-- How a `migrate` run ends: normal return, an operation raising, or the
unguarded `int(name[:4])` raising `ValueError`; each outcome carries the
history rows recorded during the run, in order. -/
inductive MigOutcome where
  | ok (history : List String)
  | opError (history : List String) (failed : String)
  | valueError (history : List String) (unit : String)
deriving DecidableEq

/-- Lexicographic code-point order on character lists — Python string
comparison, as used by `sorted` on migration names. -/
def charListLe : List Char → List Char → Bool
  | [], _ => true
  | _ :: _, [] => false
  | x :: xs, y :: ys =>
    if x.toNat < y.toNat then true
    else if y.toNat < x.toNat then false
    else charListLe xs ys

/-- Name order on migration units. -/
def nameLe (a b : MigUnit) : Bool := charListLe a.name.data b.name.data

/-- `sorted(unapplied_migrations)`: a stable sort by name (Python `sorted`
is stable; the names, being keys of the module dictionary, are distinct
anyway). -/
def sortUnits (l : List MigUnit) : List MigUnit :=
  List.insertionSort (fun a b => nameLe a b = true) l

/-- The loop of `migrate` over the sorted unapplied units: apply the
operations (a raise aborts the run), record the history row, then — only
after recording — evaluate `int(name[:4]) >= up_to`, breaking out of the
loop when it holds and raising `ValueError` when the prefix does not
parse. -/
def migrateLoop (up_to : Int) : List MigUnit → List String → MigOutcome
  | [], history => .ok history
  | u :: rest, history =>
    if u.ops.all (fun b => b) then
      let history2 := history ++ [u.name]
      match pyInt (u.name.take 4) with
      | none => .valueError history2 u.name
      | some k => if up_to ≤ k then .ok history2 else migrateLoop up_to rest history2
    else .opError history u.name

/-- Embedding of `Database.migrate`: the unapplied units are the available
modules minus the already-applied names, processed in ascending name
order. -/
def migrate (modules : List MigUnit) (applied_migrations : List String) (up_to : Int) :
    MigOutcome :=
  migrateLoop up_to
    (sortUnits (modules.filter (fun u => !(applied_migrations.contains u.name)))) []

/-- The units a run applies when nothing raises: the sorted unapplied
units up to and including the first whose parsed name prefix reaches
`up_to`. -/
def takeThrough (p : α → Bool) : List α → List α
  | [] => []
  | a :: rest => if p a then [a] else a :: takeThrough p rest

/-- The stopping test of the migrate loop, `int(name[:4]) >= up_to`, as a
Boolean on units whose prefix parses (false when it does not — the loop
then raises instead of stopping). -/
def stopCond (up_to : Int) (u : MigUnit) : Bool :=
  match pyInt (u.name.take 4) with
  | some k => decide (up_to ≤ k)
  | none => false

/-! # Theorems -/

/-! ## Placeholder substitution lemmas -/

/-- Reducing `safe_substitute` on the exact query `$table`: the whole
placeholder is replaced by the value the mapping gives `table`. -/
theorem safeSubstitute_dollar_table (m : String → Option String) (v : String)
    (hmv : m "table" = some v) : safeSubstitute m "$table".data = v.data := by
  have hd : "$table".data = '$' :: 't' :: "able".data := rfl
  rw [hd]
  rw [safeSubstitute]
  simp [isIdStart, isIdChar, hmv, safeSubstitute]

/-- `_substitute` on the exact query `$table` with a mapping hit. -/
theorem _substitute_dollar_table (db_name : String) (mc : Option ModelKind) (v : String)
    (hmv : substMapping db_name mc "table" = some v) :
    _substitute db_name "$table" mc = v := by
  have hc : ("$table".data.contains '$') = true := rfl
  simp only [_substitute, hc, if_true]
  rw [safeSubstitute_dollar_table _ _ hmv]

/-- C8: `_substitute` resolves `$table` to the catalog-qualified
`` `system`.`t` `` for a system record-kind, to the unqualified `` `t` ``
for a temporary record-kind, and to `` `db`.`t` `` for an ordinary
record-kind, and returns any query containing no `$` unchanged. -/
theorem C8_substitute_table (db_name : String) (mc : ModelKind) :
    (mc.is_system_model = true →
      _substitute db_name "$table" (some mc) = "`system`.`" ++ mc.table_name ++ "`") ∧
    (mc.is_system_model = false → mc.is_temporary_model = true →
      _substitute db_name "$table" (some mc) = "`" ++ mc.table_name ++ "`") ∧
    (mc.is_system_model = false → mc.is_temporary_model = false →
      _substitute db_name "$table" (some mc)
        = "`" ++ db_name ++ "`.`" ++ mc.table_name ++ "`") ∧
    (∀ query : String, query.data.contains '$' = false →
      _substitute db_name query (some mc) = query) := by
  refine ⟨?_, ?_, ?_, ?_⟩
  · intro hsys
    exact _substitute_dollar_table _ _ _ (by simp [substMapping, hsys])
  · intro hsys htmp
    exact _substitute_dollar_table _ _ _ (by simp [substMapping, hsys, htmp])
  · intro hsys htmp
    exact _substitute_dollar_table _ _ _ (by simp [substMapping, hsys, htmp])
  · intro query hq
    unfold _substitute
    rw [if_neg]
    simpa using hq

/-- Witness for C8 at a concrete record-kind and queries. -/
theorem C8_substitute_table_witness :
    _substitute "db1"
        "$table"
        (some { table_name := "events", is_system_model := true, is_temporary_model := false,
                is_read_only := true, has_funcs_as_defaults := false })
      = "`system`.`events`" ∧
    _substitute "db1" "SELECT 1" none = "SELECT 1" := by
  constructor
  · exact (C8_substitute_table "db1" _).1 rfl
  · have h := (C8_substitute_table "db1"
      { table_name := "events", is_system_model := true, is_temporary_model := false,
        is_read_only := true, has_funcs_as_defaults := false }).2.2.2 "SELECT 1" (by decide)
    simpa using h

/-! ## Error decoder theorems -/

/-- C2: for each of the three historical server error-text formats the
decoder extracts the numeric code and the trimmed message; any text
matched by none of the three patterns is passed through verbatim with
code 0 — the decoder never fails. -/
theorem C2_error_decoder :
    get_error_code_msg
        "Code: 161, e.displayText() = DB::Exception: Limit for rows to read exceeded: 1000000 rows read, e.what() = DB::Exception"
      = (161, "Limit for rows to read exceeded: 1000000 rows read") ∧
    get_error_code_msg
        "Code: 60, e.displayText() = DB::Exception: Table default.numbers does not exist.\n"
      = (60, "Table default.numbers does not exist.") ∧
    get_error_code_msg "Code: 516. DB::Exception: default: Authentication failed."
      = (516, "default: Authentication failed.") ∧
    (∀ text : String,
      reMatch errPattern1 text.data = none → reMatch errPattern2 text.data = none →
      reMatch errPattern3 text.data = none →
      get_error_code_msg text = (0, text)) := by
  refine ⟨by decide, by decide, by decide, ?_⟩
  intro text h1 h2 h3
  simp [get_error_code_msg, firstMatch, ERROR_PATTERNS, h1, h2, h3]

/-- Witness for C2 at a concrete unrecognized error text. -/
theorem C2_error_decoder_witness :
    reMatch errPattern1 "unknown failure".data = none ∧
    get_error_code_msg "unknown failure" = (0, "unknown failure") :=
  ⟨by decide,
    C2_error_decoder.2.2.2 "unknown failure" (by decide) (by decide) (by decide)⟩

/-! ## Request dispatch theorems -/

/-- C7: the claim as stated is false — `_send` raises on HTTP status 204,
even though 204 is a success (2xx, non-error) status: the source tests
`status_code != 200`, not success. -/
theorem C7_counterexample :
    _send { status_code := 204, text := "" } = .error (0, "") ∧
    isSuccessStatus 204 = true := by
  exact ⟨rfl, by decide⟩

/-- C7 (amended): `_send` raises a server error built by the error decoder
from the drained body exactly when the status code differs from 200 (the
one status the server signals success with; other 2xx codes raise too),
and otherwise returns the live response unchanged, even when its body is
empty. -/
theorem C7_send_raises_iff_not_200 (r : HttpResponse) :
    (r.status_code = 200 → _send r = .ok r) ∧
    (r.status_code ≠ 200 → _send r = .error (get_error_code_msg r.text)) ∧
    ((∃ e, _send r = .error e) ↔ r.status_code ≠ 200) := by
  unfold _send
  by_cases h : r.status_code = 200 <;> simp [h]

/-- Witness for C7 at a concrete all-OK, empty-body response. -/
theorem C7_send_raises_iff_not_200_witness :
    _send { status_code := 200, text := "" } = .ok { status_code := 200, text := "" } :=
  (C7_send_raises_iff_not_200 { status_code := 200, text := "" }).1 rfl

/-- The session context layer never defines keys other than `session_id`
and `session_timeout`. -/
theorem context_params_other (sid : Option String) (sto : Option Int) (k : String)
    (h1 : k ≠ "session_id") (h2 : k ≠ "session_timeout") :
    _context_params sid sto k = none := by
  cases sid with
  | none => rfl
  | some s =>
    by_cases hs : s = "" <;> simp [_context_params, hs, h1, h2]

/-- C6: the claim as stated is false: when the per-call settings themselves
carry a `readonly` key, the key is present in the outgoing parameters
although the connection is not in requested-readonly mode, so presence of
the key is not equivalent to the requested-readonly condition. -/
theorem C6_counterexample :
    _build_params
        { db_name := "db", db_exists := false, readonly := false,
          connection_readonly := false, settings := fun _ => none }
        (fun k => if k = "readonly" then some "2" else none) none none "readonly"
      = some "2" ∧
    ¬ ((_build_params
        { db_name := "db", db_exists := false, readonly := false,
          connection_readonly := false, settings := fun _ => none }
        (fun k => if k = "readonly" then some "2" else none) none none "readonly").isSome
      ↔ ((false : Bool) = true ∧ (false : Bool) = false)) := by
  refine ⟨rfl, ?_⟩
  intro h
  exact absurd ((h.mp (by rfl)).1) (by simp)

/-- C6 (amended): the outgoing parameters are layered per-call settings →
connection settings → session context → database name → readonly flag,
a higher layer winning for any key it defines; the final layer sets
`readonly` to "1" exactly when the connection is in requested-readonly
mode and the server connection is not itself globally readonly, and —
provided no lower layer itself supplies a `readonly` key — the
`readonly` key is present in the outgoing parameters precisely under that
condition. -/
theorem C6_build_params (conn : ConnState) (cs : String → Option String)
    (sid : Option String) (sto : Option Int) :
    (conn.readonly = true → conn.connection_readonly = false →
      _build_params conn cs sid sto "readonly" = some "1") ∧
    (cs "readonly" = none → conn.settings "readonly" = none →
      ((_build_params conn cs sid sto "readonly").isSome
        ↔ (conn.readonly = true ∧ conn.connection_readonly = false))) ∧
    (conn.db_exists = true →
      _build_params conn cs sid sto "database" = some conn.db_name) ∧
    (∀ s : String, sid = some s → s ≠ "" →
      _build_params conn cs sid sto "session_id" = some s) ∧
    (∀ k v, k ≠ "readonly" → k ≠ "database" → k ≠ "session_id" → k ≠ "session_timeout" →
      conn.settings k = some v → _build_params conn cs sid sto k = some v) ∧
    (∀ k, k ≠ "readonly" → k ≠ "database" → k ≠ "session_id" → k ≠ "session_timeout" →
      conn.settings k = none → _build_params conn cs sid sto k = cs k) := by
  have hkey : ∀ k, _build_params conn cs sid sto k
      = if conn.readonly = true ∧ conn.connection_readonly = false ∧ k = "readonly" then some "1"
        else if conn.db_exists = true ∧ k = "database" then some conn.db_name
        else
          match _context_params sid sto k with
          | some v => some v
          | none =>
            match conn.settings k with
            | some v => some v
            | none => cs k := by
    intro k
    unfold _build_params updD
    by_cases h1 : conn.readonly = true <;> by_cases h2 : conn.connection_readonly = true <;>
      by_cases h3 : conn.db_exists = true <;> by_cases h4 : k = "readonly" <;>
        by_cases h5 : k = "database" <;> simp_all
  have hctxro : _context_params sid sto "readonly" = none :=
    context_params_other _ _ _ (by decide) (by decide)
  refine ⟨?_, ?_, ?_, ?_, ?_, ?_⟩
  · intro h1 h2
    simp [hkey, h1, h2]
  · intro hcs hconn
    rw [hkey]
    by_cases h1 : conn.readonly = true <;> by_cases h2 : conn.connection_readonly = true <;>
      simp [h1, h2, hctxro, hcs, hconn]
  · intro hdb
    simp [hkey, hdb]
  · intro s hsid hs
    subst hsid
    rw [hkey]
    simp [_context_params, hs]
  · intro k v hk1 hk2 hk3 hk4 hv
    rw [hkey]
    simp [hk1, hk2, context_params_other sid sto k hk3 hk4, hv]
  · intro k hk1 hk2 hk3 hk4 hv
    rw [hkey]
    simp [hk1, hk2, context_params_other sid sto k hk3 hk4, hv]

/-- Witness for C6 at a concrete requested-readonly connection with an
active session. -/
theorem C6_build_params_witness :
    _build_params
        { db_name := "db", db_exists := true, readonly := true,
          connection_readonly := false, settings := fun _ => none }
        (fun _ => none) (some "sess") none "readonly" = some "1" :=
  (C6_build_params
      { db_name := "db", db_exists := true, readonly := true,
        connection_readonly := false, settings := fun _ => none }
      (fun _ => none) (some "sess") none).1 rfl rfl

/-! ## Insert guard theorems -/

/-- C9: `insert` performs no network call unless the sequence is non-empty
and its record-kind writable: an empty iterable returns normally, with no
network call and no error; a read-only or system first record raises the
validation error with no chunk sequence ever produced; and a chunk
sequence is produced only for a non-empty writable sequence. -/
theorem C9_insert_guards (α : Type) :
    (∀ (q : String) (bs : Nat), insert q ([] : List (ModelInst α)) bs = .ok none) ∧
    (∀ (q : String) (bs : Nat) (first : ModelInst α) (rest : List (ModelInst α)),
      (first.is_read_only || first.is_system_model) = true →
      insert q (first :: rest) bs
        = .error "DatabaseException: insert into read only and system tables") ∧
    (∀ (q : String) (bs : Nat) (instances : List (ModelInst α))
        (chunks : List (List (InsItem α))),
      insert q instances bs = .ok (some chunks) →
      ∃ first rest, instances = first :: rest ∧
        first.is_read_only = false ∧ first.is_system_model = false) := by
  refine ⟨fun q bs => rfl, fun q bs first rest h => by simp [insert, h], ?_⟩
  intro q bs instances chunks h
  cases instances with
  | nil => simp [insert] at h
  | cons first rest =>
    by_cases hro : first.is_read_only = true
    · simp [insert, hro] at h
    · by_cases hsy : first.is_system_model = true
      · simp [insert, hsy] at h
      · exact ⟨first, rest, rfl, by simpa using hro, by simpa using hsy⟩

/-- Witness for C9 at a concrete read-only record. -/
theorem C9_insert_guards_witness :
    insert "H" [({ data := 0, is_read_only := true, is_system_model := false } : ModelInst Nat)] 10
      = .error "DatabaseException: insert into read only and system tables" :=
  (C9_insert_guards Nat).2.1 "H" 10 _ [] rfl

/-! ## Insert chunking theorems -/

/-- Reversing a buffer does not change its profile. -/
theorem profBuf_reverse (buf : List (InsItem α)) : profBuf buf.reverse = profBuf buf := by
  simp [profBuf, List.filter_reverse]

/-- Writing one record into a buffer adds one to its record count. -/
theorem profBuf_record_cons (a : α) (buf : List (InsItem α)) :
    profBuf (InsItem.record a :: buf) = ((profBuf buf).1, (profBuf buf).2 + 1) := by
  simp [profBuf, isHeaderItem, List.filter_cons]

/-- The generator loop maps onto its count-level image: chunk profiles
depend only on the number of remaining records and the running buffer
profile. -/
theorem chunkProfile_genLoop (bs : Nat) (l : List α) (buf : List (InsItem α)) (lines : Nat) :
    chunkProfile (genLoop bs l buf lines) = profLoop bs l.length (profBuf buf) lines := by
  induction l generalizing buf lines with
  | nil =>
    by_cases h : lines = 0 <;> simp [genLoop, profLoop, h, chunkProfile, profBuf_reverse]
  | cons a t ih =>
    simp only [genLoop, profLoop, List.length_cons]
    by_cases h : bs ≤ lines + 1
    · simp only [if_pos h, chunkProfile, List.map_cons]
      rw [← chunkProfile, ih, profBuf_reverse, profBuf_record_cons]
      simp [profBuf]
    · simp only [if_neg h]
      rw [ih, profBuf_record_cons]

/-- Nothing is lost or duplicated: concatenating the yielded chunks
restores the written pieces in order — provided the line counter equals
the buffer length, which `gen` establishes and the loop maintains. -/
theorem genLoop_join (bs : Nat) (l : List α) (buf : List (InsItem α)) (lines : Nat)
    (hinv : lines = buf.length) :
    (genLoop bs l buf lines).flatten
      = buf.reverse ++ l.map (fun a => InsItem.record a) := by
  induction l generalizing buf lines with
  | nil =>
    subst hinv
    by_cases h : buf.length = 0
    · rw [List.length_eq_zero] at h
      subst h
      simp [genLoop]
    · simp [genLoop, h]
  | cons a t ih =>
    simp only [genLoop]
    by_cases h : bs ≤ lines + 1
    · simp only [if_pos h, List.flatten_cons]
      rw [ih [] 0 rfl]
      simp
    · simp only [if_neg h]
      rw [ih (InsItem.record a :: buf) (lines + 1) (by simp [hinv])]
      simp

/-- Extending a chunk list by a full chunk preserves its shape. -/
theorem chunksOk_cons (bs : Nat) (c : List (InsItem α)) (rest : List (List (InsItem α)))
    (hc : c.length = bs) (hb : 1 ≤ bs) (hrest : ChunksOk bs rest) :
    ChunksOk bs (c :: rest) := by
  cases rest with
  | nil => exact ⟨by omega, by omega⟩
  | cons r t => exact ⟨hc, hrest⟩

/-- Shape of the generator output: full chunks of `batch_size` lines, with
a non-empty final chunk of at most `batch_size` lines. -/
theorem genLoop_chunksOk (bs : Nat) (l : List α) (buf : List (InsItem α)) (lines : Nat)
    (hinv : lines = buf.length) (hlt : buf.length < bs) :
    ChunksOk bs (genLoop bs l buf lines) := by
  induction l generalizing buf lines with
  | nil =>
    subst hinv
    by_cases h : buf.length = 0
    · simp [genLoop, h, ChunksOk]
    · simp only [genLoop, if_pos h]
      exact ⟨by simp; omega, by simp; omega⟩
  | cons a t ih =>
    simp only [genLoop]
    by_cases h : bs ≤ lines + 1
    · simp only [if_pos h]
      refine chunksOk_cons _ _ _ (by simp [hinv]; omega) (by omega)
        (ih [] 0 rfl (by simp only [List.length_nil]; omega))
    · simp only [if_neg h]
      exact ih (InsItem.record a :: buf) (lines + 1) (by simp [hinv]) (by simp; omega)

set_option maxRecDepth 1000000 in
/-- C1: the claim as stated is false. At 2500 records and batch_size 1000
the generator yields three chunks whose (header count, record count)
profiles are (1, 999), (0, 1000), (0, 501): the INSERT header itself
counts as one of the batch_size lines of the first chunk, so the first
chunk carries 999 records, not 1000, and the trailing chunk 501, not
500. -/
theorem C1_counterexample :
    (insert "HDR"
        (List.replicate 2500
          ({ data := 0, is_read_only := false, is_system_model := false } : ModelInst Nat))
        1000).map (fun o => o.map chunkProfile)
      = .ok (some [(1, 999), (0, 1000), (0, 501)]) ∧
    ([(1, 999), (0, 1000), (0, 501)] : List (Nat × Nat))
      ≠ [(1, 1000), (0, 1000), (0, 500)] := by
  constructor
  · rfl
  · decide

set_option maxRecDepth 1000000 in
/-- C1 (amended): for every iterable of 2500 records of one writable
record-kind and batch_size 1000, insert produces exactly 3 network
chunks: the first contains the INSERT format header plus 999 serialized
records (the header counts toward the batch_size line budget of the
first chunk), the second 1000 records, and the third 501; more
generally (for batch_size at least 3), a chunk is yielded each time the
buffer holds batch_size lines — header included — so every chunk before
the last has exactly batch_size lines, any non-empty trailing partial
buffer is yielded after the source is exhausted, and the chunks
concatenate to the header followed by every record exactly once, in
order, with the header only in the first chunk. -/
theorem C1_insert_batching (α : Type) :
    (∀ (q : String) (first : ModelInst α) (rest : List (ModelInst α)),
      first.is_read_only = false → first.is_system_model = false → rest.length = 2499 →
      (insert q (first :: rest) 1000).map (fun o => o.map chunkProfile)
        = .ok (some [(1, 999), (0, 1000), (0, 501)])) ∧
    (∀ (q : String) (first : α) (rest : List α) (bs : Nat), 3 ≤ bs →
      ChunksOk bs (gen q first rest bs) ∧
      (gen q first rest bs).flatten
        = InsItem.header q :: InsItem.record first
            :: rest.map (fun a => InsItem.record a)) := by
  constructor
  · intro q first rest hro hsy hlen
    have hgen : insert q (first :: rest) 1000
        = .ok (some (gen q first.data (rest.map ModelInst.data) 1000)) := by
      simp [insert, hro, hsy]
    rw [hgen]
    have hp : chunkProfile (gen q first.data (rest.map ModelInst.data) 1000)
        = [(1, 999), (0, 1000), (0, 501)] := by
      rw [gen, chunkProfile_genLoop]
      have hb : profBuf ([InsItem.record first.data, InsItem.header q] : List (InsItem α))
          = ((1 : Nat), (1 : Nat)) := rfl
      rw [hb]
      simp only [List.length_map, hlen]
      decide
    simp [Except.map, hp]
  · intro q first rest bs hbs
    constructor
    · exact genLoop_chunksOk bs rest [InsItem.record first, InsItem.header q] 2 rfl
        (by simp only [List.length_cons, List.length_nil]; omega)
    · rw [gen, genLoop_join bs rest [InsItem.record first, InsItem.header q] 2 rfl]
      simp

set_option maxRecDepth 1000000 in
/-- Witness for C1 at a concrete batch of 2500 records. -/
theorem C1_insert_batching_witness :
    (insert "INSERT INTO `db`.`t` (`x`) FORMAT TabSeparated"
        (List.replicate 2500
          ({ data := 1, is_read_only := false, is_system_model := false } : ModelInst Nat))
        1000).map (fun o => o.map chunkProfile)
      = .ok (some [(1, 999), (0, 1000), (0, 501)]) := by
  have h := (C1_insert_batching Nat).1 "INSERT INTO `db`.`t` (`x`) FORMAT TabSeparated"
    { data := 1, is_read_only := false, is_system_model := false }
    (List.replicate 2499 { data := 1, is_read_only := false, is_system_model := false })
    rfl rfl (by simp)
  simpa using h

/-! ## Pagination theorems -/

/-- `resolvePageNum` on `-1` gives the last page, at least 1. -/
theorem resolvePageNum_neg_one (pt : Nat) :
    resolvePageNum pt (-1) = .ok (max (pt : Int) 1) := rfl

/-- `resolvePageNum` passes any page number at least 1 through. -/
theorem resolvePageNum_pos (pt : Nat) (page_num : Int) (h1 : 1 ≤ page_num) :
    resolvePageNum pt page_num = .ok page_num := by
  unfold resolvePageNum
  rw [if_neg (by omega), if_neg (by omega)]

/-- Unfolding `paginate` under a successful page-number resolution. -/
theorem paginate_ok (table : List α) (page_num : Int) (page_size : Nat)
    (hps : ¬ page_size = 0) (number : Int)
    (hres : resolvePageNum ((table.length + page_size - 1) / page_size) page_num
      = .ok number) :
    paginate table page_num page_size = .ok
      { objects :=
          if table.length ≠ 0 then
            (table.drop ((number - 1).toNat * page_size)).take page_size
          else [],
        number_of_objects := table.length,
        pages_total := (table.length + page_size - 1) / page_size,
        number := number,
        page_size := page_size } := by
  simp only [paginate]
  rw [if_neg hps, hres]

/-- The materialized page slice is empty exactly when the table is, as
long as the resolved page number lies within the page range. -/
theorem paginate_objects_empty_iff (table : List α) (page_size : Nat) (number : Int)
    (hps : 0 < page_size) (h1 : 1 ≤ number)
    (hle : number ≤ max (((table.length + page_size - 1) / page_size : Nat) : Int) 1) :
    ((if table.length ≠ 0 then
        (table.drop ((number - 1).toNat * page_size)).take page_size
      else []) = [] ↔ table.length = 0) := by
  by_cases hc : table.length = 0
  · simp [hc]
  · rw [if_pos hc]
    constructor
    · intro hobj
      exfalso
      set pt := (table.length + page_size - 1) / page_size with hpt
      have hdiv : pt * page_size ≤ table.length + page_size - 1 := Nat.div_mul_le_self _ _
      have hpt1 : 1 ≤ pt := by
        rw [hpt, Nat.le_div_iff_mul_le hps]
        omega
      have hmax : max ((pt : Nat) : Int) 1 = (pt : Int) := by
        rw [max_eq_left]
        exact_mod_cast hpt1
      rw [hmax] at hle
      have hnum : (number - 1).toNat ≤ pt - 1 := by omega
      have hof : (number - 1).toNat * page_size ≤ (pt - 1) * page_size :=
        Nat.mul_le_mul_right _ hnum
      have hsub : (pt - 1) * page_size = pt * page_size - page_size := by
        rw [Nat.sub_mul, Nat.one_mul]
      have hlt : (number - 1).toNat * page_size < table.length := by omega
      have hlen := congrArg List.length hobj
      simp only [List.length_take, List.length_drop, List.length_nil] at hlen
      omega
    · intro h
      exact absurd h hc

/-- C3: for every table contents and page size, `paginate` returns a page
with `pages_total = ceil(count / page_size)`, `objects` empty exactly when
the count is zero (for a page number in range or `-1`), and `-1` resolved
to `max(pages_total, 1)`; over 95 rows with page size 10 and page `-1` it
yields page number 10, 10 pages total and 5 objects, and over an empty
table it yields no objects, 0 pages total and page number 1. -/
theorem C3_paginate (α : Type) :
    (∀ (table : List α) (page_num : Int) (page_size : Nat),
      0 < page_size →
      (page_num = -1 ∨ (1 ≤ page_num ∧
        page_num ≤ max (((table.length + page_size - 1) / page_size : Nat) : Int) 1)) →
      ∃ p : Page α, paginate table page_num page_size = .ok p ∧
        p.pages_total = (table.length + page_size - 1) / page_size ∧
        (p.objects = [] ↔ table.length = 0) ∧
        (page_num = -1 →
          p.number = max (((table.length + page_size - 1) / page_size : Nat) : Int) 1)) ∧
    (∀ table : List α, table.length = 95 →
      ∃ p : Page α, paginate table (-1) 10 = .ok p ∧
        p.number = 10 ∧ p.pages_total = 10 ∧ p.objects.length = 5) ∧
    (∃ p : Page α, paginate ([] : List α) (-1) 10 = .ok p ∧
      p.objects = [] ∧ p.pages_total = 0 ∧ p.number = 1) := by
  refine ⟨?_, ?_, ?_⟩
  · intro table page_num page_size hps hpn
    rcases hpn with h1 | ⟨hge, hle⟩
    · subst h1
      refine ⟨_, paginate_ok table (-1) page_size (by omega) _ (resolvePageNum_neg_one _),
        rfl, ?_, fun _ => rfl⟩
      exact paginate_objects_empty_iff table page_size _ hps (le_max_right _ _) (le_refl _)
    · refine ⟨_, paginate_ok table page_num page_size (by omega) _
        (resolvePageNum_pos _ _ hge), rfl, ?_, fun hc => absurd hc (by omega)⟩
      exact paginate_objects_empty_iff table page_size page_num hps hge hle
  · intro table h95
    have hres : resolvePageNum ((table.length + 10 - 1) / 10) (-1) = .ok 10 := by
      rw [h95]
      norm_num [resolvePageNum]
    refine ⟨_, paginate_ok table (-1) 10 (by omega) 10 hres, rfl, by rw [h95], ?_⟩
    rw [if_pos (by omega)]
    simp only [List.length_take, List.length_drop, h95]
    decide
  · have hres : resolvePageNum ((([] : List α).length + 10 - 1) / 10) (-1) = .ok 1 := by
      norm_num [resolvePageNum]
    refine ⟨_, paginate_ok ([] : List α) (-1) 10 (by omega) 1 hres, by simp, by norm_num, rfl⟩

/-- Witness for C3 over a concrete 95-row table. -/
theorem C3_paginate_witness :
    (List.range 95).length = 95 ∧
    (∃ p : Page Nat, paginate (List.range 95) (-1) 10 = .ok p ∧
      p.number = 10 ∧ p.pages_total = 10 ∧ p.objects.length = 5) :=
  ⟨by simp, (C3_paginate Nat).2.1 (List.range 95) (by simp)⟩

/-! ## Migration runner theorems -/

/-- `charListLe` is total. -/
theorem charListLe_total (a : List Char) :
    ∀ b, charListLe a b = true ∨ charListLe b a = true := by
  induction a with
  | nil =>
    intro b
    left
    rfl
  | cons x xs ih =>
    intro b
    cases b with
    | nil =>
      right
      rfl
    | cons y ys =>
      rcases Nat.lt_trichotomy x.toNat y.toNat with h | h | h
      · left
        simp [charListLe, h]
      · rcases ih ys with h2 | h2
        · left
          simp [charListLe, h, h2]
        · right
          simp [charListLe, h, h2]
      · right
        simp [charListLe, h]

/-- `charListLe` is transitive. -/
theorem charListLe_trans (a : List Char) :
    ∀ b c, charListLe a b = true → charListLe b c = true → charListLe a c = true := by
  induction a with
  | nil =>
    intro b c h1 h2
    rfl
  | cons x xs ih =>
    intro b c h1 h2
    cases b with
    | nil => simp [charListLe] at h1
    | cons y ys =>
      cases c with
      | nil => simp [charListLe] at h2
      | cons z zs =>
        simp only [charListLe] at h1 h2 ⊢
        rcases Nat.lt_trichotomy x.toNat y.toNat with h | h | h
        · rcases Nat.lt_trichotomy y.toNat z.toNat with g | g | g
          · rw [if_pos (by omega)]
          · rw [if_pos (by omega)]
          · rw [if_neg (by omega), if_pos g] at h2
            simp at h2
        · rcases Nat.lt_trichotomy y.toNat z.toNat with g | g | g
          · rw [if_pos (by omega)]
          · rw [if_neg (by omega), if_neg (by omega)] at h1
            rw [if_neg (by omega), if_neg (by omega)] at h2
            rw [if_neg (by omega), if_neg (by omega)]
            exact ih ys zs h1 h2
          · rw [if_neg (by omega), if_pos g] at h2
            simp at h2
        · rw [if_neg (by omega), if_pos h] at h1
          simp at h1

/-- The sorted unapplied units are in ascending name order. -/
theorem sortUnits_sorted (l : List MigUnit) :
    (sortUnits l).Sorted (fun a b => nameLe a b = true) := by
  haveI : IsTotal MigUnit (fun a b => nameLe a b = true) :=
    ⟨fun a b => charListLe_total a.name.data b.name.data⟩
  haveI : IsTrans MigUnit (fun a b => nameLe a b = true) :=
    ⟨fun a b c => charListLe_trans a.name.data b.name.data c.name.data⟩
  exact List.sorted_insertionSort _ l

/-- Processing a segment of units that all succeed and all stay below
`up_to` records exactly their names, in order, and continues. -/
theorem migrateLoop_pre (up_to : Int) (pre : List MigUnit) :
    ∀ (rest : List MigUnit) (hist : List String),
    (∀ v ∈ pre, v.ops.all (fun b => b) = true ∧
      ∃ k, pyInt (v.name.take 4) = some k ∧ k < up_to) →
    migrateLoop up_to (pre ++ rest) hist
      = migrateLoop up_to rest (hist ++ pre.map MigUnit.name) := by
  induction pre with
  | nil =>
    intro rest hist hpre
    simp
  | cons v t ih =>
    intro rest hist hpre
    obtain ⟨h1, k, hk, hlt⟩ := hpre v (by simp)
    rw [List.cons_append, migrateLoop, if_pos h1, hk]
    show (if up_to ≤ k then MigOutcome.ok (hist ++ [v.name])
          else migrateLoop up_to (t ++ rest) (hist ++ [v.name])) = _
    rw [if_neg (by omega)]
    rw [ih rest (hist ++ [v.name]) (fun u hu => hpre u (by simp [hu]))]
    simp

/-- A run over units that all succeed and parse returns normally with the
history of the prefix up to and including the first unit reaching
`up_to`. -/
theorem migrateLoop_ok_takeThrough (up_to : Int) (l : List MigUnit) :
    ∀ hist : List String,
    (∀ u ∈ l, u.ops.all (fun b => b) = true) →
    (∀ u ∈ l, (pyInt (u.name.take 4)).isSome = true) →
    migrateLoop up_to l hist
      = .ok (hist ++ (takeThrough (stopCond up_to) l).map MigUnit.name) := by
  induction l with
  | nil =>
    intro hist hops hparse
    simp [migrateLoop, takeThrough]
  | cons u t ih =>
    intro hist hops hparse
    have h1 : u.ops.all (fun b => b) = true := hops u (by simp)
    obtain ⟨k, hk⟩ := Option.isSome_iff_exists.mp (hparse u (by simp))
    by_cases hle : up_to ≤ k
    · simp [migrateLoop, h1, hk, takeThrough, stopCond, hle]
    · rw [takeThrough]
      rw [migrateLoop, if_pos h1, hk]
      show (if up_to ≤ k then MigOutcome.ok (hist ++ [u.name])
            else migrateLoop up_to t (hist ++ [u.name])) = _
      rw [if_neg hle]
      rw [ih (hist ++ [u.name]) (fun w hw => hops w (by simp [hw]))
          (fun w hw => hparse w (by simp [hw]))]
      simp [stopCond, hk, hle]

/-- `takeThrough` takes everything when the test never fires. -/
theorem takeThrough_eq_self (p : α → Bool) (l : List α)
    (h : ∀ a ∈ l, p a = false) : takeThrough p l = l := by
  induction l with
  | nil => rfl
  | cons a t ih =>
    rw [takeThrough, if_neg (by simp [h a (by simp)]), ih (fun w hw => h w (by simp [hw]))]

/-- C4: `migrate` applies the unapplied migration units in ascending name
order and stops, without failing, immediately after the first unit whose
numeric name prefix reaches `up_to` has been fully applied and recorded —
the bound is inclusive, and units after the boundary unit are not
touched. -/
theorem C4_migrate_order (modules : List MigUnit) (applied : List String) (up_to : Int)
    (hops : ∀ u ∈ sortUnits (modules.filter (fun w => !(applied.contains w.name))),
      u.ops.all (fun b => b) = true)
    (hparse : ∀ u ∈ sortUnits (modules.filter (fun w => !(applied.contains w.name))),
      (pyInt (u.name.take 4)).isSome = true) :
    (sortUnits (modules.filter (fun w => !(applied.contains w.name)))).Sorted
      (fun a b => nameLe a b = true) ∧
    migrate modules applied up_to
      = .ok ((takeThrough (stopCond up_to)
          (sortUnits (modules.filter (fun w => !(applied.contains w.name))))).map
            MigUnit.name) := by
  refine ⟨sortUnits_sorted _, ?_⟩
  unfold migrate
  rw [migrateLoop_ok_takeThrough up_to _ [] hops hparse]
  simp

/-- Witness for C4: three units, `up_to = 2`, applied in name order and
stopped right after unit `0002_b`, leaving `0003_c` unapplied. -/
theorem C4_migrate_order_witness :
    migrate [⟨"0002_b", [true]⟩, ⟨"0001_a", [true]⟩, ⟨"0003_c", [true]⟩] [] 2
      = .ok ((takeThrough (stopCond 2)
          (sortUnits (([⟨"0002_b", [true]⟩, ⟨"0001_a", [true]⟩, ⟨"0003_c", [true]⟩] :
            List MigUnit).filter (fun w => !(([] : List String).contains w.name))))).map
              MigUnit.name) :=
  (C4_migrate_order [⟨"0002_b", [true]⟩, ⟨"0001_a", [true]⟩, ⟨"0003_c", [true]⟩] [] 2
    (by decide) (by decide)).2

/-- C5: a failing operation in a unit aborts the run with exactly the
earlier units recorded and the failing unit absent from history, and
running `migrate` twice in succession applies each unit exactly once. -/
theorem C5_migrate_atomic_and_idempotent :
    (∀ (modules : List MigUnit) (applied : List String) (up_to : Int)
        (pre : List MigUnit) (u : MigUnit) (post : List MigUnit),
      (modules.map MigUnit.name).Nodup →
      sortUnits (modules.filter (fun w => !(applied.contains w.name))) = pre ++ u :: post →
      (∀ v ∈ pre, v.ops.all (fun b => b) = true ∧
        ∃ k, pyInt (v.name.take 4) = some k ∧ k < up_to) →
      u.ops.all (fun b => b) = false →
      migrate modules applied up_to = .opError (pre.map MigUnit.name) u.name ∧
        u.name ∉ pre.map MigUnit.name) ∧
    (∀ (modules : List MigUnit) (up_to : Int),
      (modules.map MigUnit.name).Nodup →
      (∀ u ∈ modules, u.ops.all (fun b => b) = true) →
      (∀ u ∈ modules, ∃ k, pyInt (u.name.take 4) = some k ∧ k < up_to) →
      ∃ h1 : List String,
        migrate modules [] up_to = .ok h1 ∧
        migrate modules h1 up_to = .ok [] ∧
        h1.Nodup ∧ (∀ n, n ∈ h1 ↔ n ∈ modules.map MigUnit.name)) := by
  constructor
  · intro modules applied up_to pre u post hnodup hsplit hpre hfail
    constructor
    · unfold migrate
      rw [hsplit, migrateLoop_pre up_to pre (u :: post) [] hpre]
      simp [migrateLoop, hfail]
    · have hsub : ((modules.filter (fun w => !(applied.contains w.name))).map
          MigUnit.name).Sublist (modules.map MigUnit.name) :=
        (List.filter_sublist _).map MigUnit.name
      have hnd1 : ((modules.filter (fun w => !(applied.contains w.name))).map
          MigUnit.name).Nodup := hnodup.sublist hsub
      have hperm : (sortUnits (modules.filter (fun w => !(applied.contains w.name)))).Perm
          (modules.filter (fun w => !(applied.contains w.name))) :=
        List.perm_insertionSort _ _
      have hnd2 : ((pre ++ u :: post).map MigUnit.name).Nodup := by
        rw [← hsplit]
        exact (hperm.map MigUnit.name).nodup_iff.mpr hnd1
      rw [List.map_append, List.map_cons] at hnd2
      have := List.nodup_middle.mp hnd2
      intro hmem
      exact (List.nodup_cons.mp this).1 (List.mem_append_left _ hmem)
  · intro modules up_to hnodup hops hparse
    have hfilter : modules.filter (fun w => !(([] : List String).contains w.name))
        = modules := List.filter_eq_self.mpr (fun a _ => rfl)
    have hperm : (sortUnits modules).Perm modules := List.perm_insertionSort _ _
    have hops2 : ∀ u ∈ sortUnits modules, u.ops.all (fun b => b) = true :=
      fun u hu => hops u (hperm.mem_iff.mp hu)
    have hparse2 : ∀ u ∈ sortUnits modules, (pyInt (u.name.take 4)).isSome = true := by
      intro u hu
      obtain ⟨k, hk, _⟩ := hparse u (hperm.mem_iff.mp hu)
      simp [hk]
    have hstop : ∀ u ∈ sortUnits modules, stopCond up_to u = false := by
      intro u hu
      obtain ⟨k, hk, hlt⟩ := hparse u (hperm.mem_iff.mp hu)
      simp [stopCond, hk]
      omega
    refine ⟨(sortUnits modules).map MigUnit.name, ?_, ?_, ?_, ?_⟩
    · unfold migrate
      rw [hfilter, migrateLoop_ok_takeThrough up_to _ [] hops2 hparse2,
        takeThrough_eq_self _ _ hstop]
      simp
    · unfold migrate
      have hall : modules.filter
          (fun w => !(((sortUnits modules).map MigUnit.name).contains w.name)) = [] := by
        apply List.filter_eq_nil_iff.mpr
        intro u hu
        have : u.name ∈ (sortUnits modules).map MigUnit.name := by
          exact List.mem_map_of_mem MigUnit.name (hperm.mem_iff.mpr hu)
        simp [this]
      rw [hall]
      rfl
    · exact (hperm.map MigUnit.name).nodup_iff.mpr hnodup
    · intro n
      exact (hperm.map MigUnit.name).mem_iff
  
/-- Witness for C5: a failing second unit leaves only the first recorded,
and a clean two-unit set migrates each unit exactly once across two
runs. -/
theorem C5_migrate_atomic_and_idempotent_witness :
    (migrate [⟨"0001_a", [true]⟩, ⟨"0002_b", [true, false]⟩] [] 9999
      = .opError ["0001_a"] "0002_b" ∧ "0002_b" ∉ ["0001_a"]) ∧
    (∃ h1 : List String,
      migrate [⟨"0001_a", [true]⟩, ⟨"0002_b", [true]⟩] [] 9999 = .ok h1 ∧
      migrate [⟨"0001_a", [true]⟩, ⟨"0002_b", [true]⟩] h1 9999 = .ok [] ∧
      h1.Nodup ∧
      (∀ n, n ∈ h1 ↔ n ∈ ([⟨"0001_a", [true]⟩, ⟨"0002_b", [true]⟩] :
        List MigUnit).map MigUnit.name)) := by
  constructor
  · have h := C5_migrate_atomic_and_idempotent.1
      [⟨"0001_a", [true]⟩, ⟨"0002_b", [true, false]⟩] [] 9999
      [⟨"0001_a", [true]⟩] ⟨"0002_b", [true, false]⟩ []
      (by decide) (by decide)
      (by
        intro v hv
        fin_cases hv
        exact ⟨by decide, 1, by decide, by decide⟩)
      (by decide)
    simpa using h
  · exact C5_migrate_atomic_and_idempotent.2
      [⟨"0001_a", [true]⟩, ⟨"0002_b", [true]⟩] 9999
      (by decide) (by decide)
      (by
        intro u hu
        fin_cases hu
        · exact ⟨1, by decide, by decide⟩
        · exact ⟨2, by decide, by decide⟩)

/-- C10: a reached unapplied unit whose first four name characters do not
parse as a decimal integer makes `migrate` raise `ValueError` from the
unguarded `int(name[:4])` — and only after that unit has been fully
applied and its history row recorded: the failing unit is the last entry
of the recorded history. -/
theorem C10_migrate_value_error (modules : List MigUnit) (applied : List String)
    (up_to : Int) (pre : List MigUnit) (u : MigUnit) (post : List MigUnit)
    (hsplit : sortUnits (modules.filter (fun w => !(applied.contains w.name)))
      = pre ++ u :: post)
    (hpre : ∀ v ∈ pre, v.ops.all (fun b => b) = true ∧
      ∃ k, pyInt (v.name.take 4) = some k ∧ k < up_to)
    (hops : u.ops.all (fun b => b) = true)
    (hbad : pyInt (u.name.take 4) = none) :
    migrate modules applied up_to
      = .valueError (pre.map MigUnit.name ++ [u.name]) u.name := by
  unfold migrate
  rw [hsplit, migrateLoop_pre up_to pre (u :: post) [] hpre]
  simp [migrateLoop, hops, hbad]

/-- Witness for C10: the unit `001_init`, whose name prefix `001_` does
not parse, is applied and recorded, then the run raises. -/
theorem C10_migrate_value_error_witness :
    migrate [⟨"001_init", [true]⟩] [] 9999
      = .valueError ["001_init"] "001_init" := by
  have h := C10_migrate_value_error [⟨"001_init", [true]⟩] [] 9999
    [] ⟨"001_init", [true]⟩ [] (by decide) (by decide) (by decide) (by decide)
  simpa using h

end ClickhouseOrm
